import Mathlib

/-!
Shallow embedding of `src/app.py` (a minimal Flask blog with a single admin,
post create/delete, and local-disk image upload), together with theorems that
settle the specification claims about it.

Modelling decisions (each definition's doc comment names the source lines it
embeds):
* Machine state is `AppState`: the `posts` table in insertion (primary-key)
  order, the autoincrement counters, the set of file names present under the
  configured upload root (`uploadDir`), and the `users` table.
* Timestamps (`datetime.utcnow`) are `Nat` values supplied by the environment
  at each request.
* `ORDER BY date_posted DESC` (no secondary key appears in the query) is
  realised as a stable sort on the descending-date relation, so rows with
  equal timestamps come back in storage (insertion / rowid) order, which is
  what the SQLite backend produces for this table scan.
* `werkzeug.secure_filename` is embedded for ASCII inputs; the leading NFKD
  normalisation step of the original is the identity on ASCII and is omitted.
* Fallible external effects (`os.remove` in `delete_post`) are driven by an
  explicit Boolean telling whether the call raises; the handler swallows the
  exception either way, as in the source.
* The one structurally forced failure of `image.save` — a sanitized filename
  that is empty, which makes the handler open the upload directory itself and
  raise `IsADirectoryError` — is modelled as a server-error outcome that
  persists nothing; disk I/O is otherwise taken as reliable.
-/

/-- The `Post` model, `src/app.py` lines 58-63: integer primary key, title,
content, `date_posted` (UTC timestamp, modelled as `Nat`), and the nullable
`image_file` column. -/
structure Post where
  id : Nat
  title : String
  content : String
  date_posted : Nat
  image_file : Option String
deriving Repr, DecidableEq

/-- The `User` model, `src/app.py` lines 53-56: integer primary key, unique
username, and the stored password hash (the `password` column). -/
structure UserRec where
  id : Nat
  username : String
  password : String
deriving Repr, DecidableEq

/-- A multipart file part as seen by `request.files.get('image')`: only its
original filename matters to the control flow of the handler (the binary
payload is opaque). -/
structure Upload where
  filename : String
deriving Repr, DecidableEq

/-- The persistent state the handlers in `src/app.py` read and write: the
`posts` table in insertion order with its autoincrement counter, the file
names currently present under `app.config['UPLOAD_FOLDER']`, and the `users`
table with its autoincrement counter. -/
structure AppState where
  posts : List Post
  nextId : Nat
  uploadDir : List String
  users : List UserRec
  nextUserId : Nat
deriving Repr, DecidableEq

/- ### werkzeug.secure_filename (used at src/app.py line 136) -/

/-- The whitespace characters Python's `str.split()` (no separator) splits
on. -/
def isPyWS (c : Char) : Bool :=
  c = ' ' || c = '\t' || c = '\n' || c = '\r' || c = '\x0b' || c = '\x0c'

/-- Python `str.split()` with no separator: split on runs of whitespace,
discarding empty pieces.  `acc` holds the current word, reversed. -/
def pySplitWSAux : List Char → List Char → List (List Char)
  | [], acc => if acc.isEmpty then [] else [acc.reverse]
  | c :: cs, acc =>
    if isPyWS c then
      if acc.isEmpty then pySplitWSAux cs [] else acc.reverse :: pySplitWSAux cs []
    else pySplitWSAux cs (c :: acc)

def pySplitWS (l : List Char) : List (List Char) := pySplitWSAux l []

/-- The character class kept by werkzeug's `_filename_ascii_strip_re`
(`[A-Za-z0-9_.-]`); every other character is deleted. -/
def allowedChar (c : Char) : Bool :=
  ('A' ≤ c && c ≤ 'Z') || ('a' ≤ c && c ≤ 'z') || ('0' ≤ c && c ≤ '9') ||
    c = '_' || c = '.' || c = '-'

/-- The characters removed from both ends by the final `.strip("._")`. -/
def isStripChar (c : Char) : Bool := c = '.' || c = '_'

/-- Python `str.strip("._")`: drop leading and trailing `.` and `_`. -/
def pyStripDots (l : List Char) : List Char :=
  ((l.dropWhile isStripChar).reverse.dropWhile isStripChar).reverse

/-- `werkzeug.utils.secure_filename` on a POSIX host, for ASCII input (the
NFKD step of the original is the identity there): drop non-ASCII bytes,
replace `os.sep` (`/`; `os.path.altsep` is `None`) by a space, split on
whitespace and re-join with `_`, delete every character outside
`[A-Za-z0-9_.-]`, then strip `.` and `_` from both ends.  The Windows device
name check is skipped (`os.name != "nt"`). -/
def secure_filename (s : String) : String :=
  let ascii := s.data.filter (fun c => c.toNat ≤ 127)
  let noSep := ascii.map (fun c => if c = '/' then ' ' else c)
  let joined := List.intercalate ['_'] (pySplitWS noSep)
  String.mk (pyStripDots (joined.filter allowedChar))

/- ### POSIX path resolution (for the path-traversal claim) -/

/-- One step of resolving path components against a stack of directories
(most recent first): `""` and `"."` are skipped, `".."` pops, anything else
pushes. -/
def resolveGo : List String → List String → List String
  | stack, [] => stack
  | stack, c :: cs =>
    if c = "" || c = "." then resolveGo stack cs
    else if c = ".." then resolveGo stack.tail cs
    else resolveGo (c :: stack) cs

/-- Resolve a list of path components, eliminating `.`, empty components and
`..`.  A write escapes a root exactly when the resolved root is not an
initial segment of the resolved target path. -/
def resolve (comps : List String) : List String := (resolveGo [] comps).reverse

/- ### The request handlers -/

/-- Outcome of a POST to `/admin` (`src/app.py` lines 121-144): a validation
failure flashed back to the form, an unhandled exception surfacing as an
HTTP 500 (the save path, see `admin_post`), or the created record. -/
inductive AdminPostOutcome
  | validationError (msg : String)
  | serverError
  | created (p : Post)
deriving Repr, DecidableEq

/-- The filename the handler computes at `src/app.py` lines 134-136:
`None` unless a file part is present with a non-empty original filename
(`FileStorage.__bool__` is `bool(self.filename)`), else the sanitized name. -/
def uploadName (image : Option Upload) : Option String :=
  match image with
  | some img => if img.filename ≠ "" then some (secure_filename img.filename) else none
  | none => none

/-- The POST branch of the `/admin` handler, `src/app.py` lines 121-144:
reject empty title/content, reject a title longer than 80 characters, then
(if an upload with a non-empty original name is present) save the sanitized
file under the upload root (silently overwriting, so the name set gains at
most one entry), and finally insert the new `Post` row with a fresh id and
the current timestamp.  When the sanitized name is empty (an original name
such as `"../"`), `image.save(os.path.join(UPLOAD_FOLDER, ""))` at line 138
opens the upload directory itself for writing and raises `IsADirectoryError`;
the exception is not caught, the request fails with HTTP 500, and the
`add`/`commit` at lines 140-142 never run, so nothing is persisted. -/
def admin_post (s : AppState) (now : Nat) (title content : String)
    (image : Option Upload) : AdminPostOutcome × AppState :=
  if title = "" || content = "" then
    (.validationError "Заголовок и содержание не могут быть пустыми.", s)
  else if title.length > 80 then
    (.validationError "Заголовок слишком длинный.", s)
  else
    match uploadName image with
    | some f =>
      if f = "" then
        (.serverError, s)
      else
        let p : Post :=
          { id := s.nextId, title := title, content := content,
            date_posted := now, image_file := some f }
        (.created p, { s with posts := s.posts ++ [p],
                              uploadDir := s.uploadDir.insert f,
                              nextId := s.nextId + 1 })
    | none =>
      let p : Post :=
        { id := s.nextId, title := title, content := content,
          date_posted := now, image_file := none }
      (.created p, { s with posts := s.posts ++ [p], nextId := s.nextId + 1 })

/-- Outcome of a POST to `/delete_post/<id>` (`src/app.py` lines 149-163). -/
inductive DeleteOutcome
  | notFound
  | success
deriving Repr, DecidableEq

/-- The `/delete_post/<id>` handler, `src/app.py` lines 149-163:
`get_or_404` aborts with 404 when no row matches; otherwise, when the row has
an `image_file`, the handler tries to `os.remove` it (guarded by
`os.path.exists`) and swallows any exception (`removeFails` tells whether the
call raised); the row is then deleted and committed regardless. -/
def delete_post (s : AppState) (postId : Nat) (removeFails : Bool) :
    DeleteOutcome × AppState :=
  match s.posts.find? (fun p => p.id = postId) with
  | none => (.notFound, s)
  | some p =>
    let dir := match p.image_file with
      | none => s.uploadDir
      | some name =>
        if removeFails then s.uploadDir
        else if s.uploadDir.contains name then s.uploadDir.erase name
        else s.uploadDir
    (.success, { s with uploadDir := dir,
                        posts := s.posts.filter (fun q => q.id ≠ postId) })

/-- The bootstrap routine `setup_database`, `src/app.py` lines 165-174:
`db.create_all()` (schema creation, a no-op on the modelled state), then if no
user row carries the configured admin username, insert exactly one admin row
whose `password` column is a freshly generated salted hash (`freshHash`, a
new value on every run since the salt is random).  Existing rows are never
touched. -/
def setup_database (s : AppState) (adminUsername freshHash : String) : AppState :=
  match s.users.find? (fun u => u.username = adminUsername) with
  | some _ => s
  | none =>
    { s with
      users := s.users ++
        [{ id := s.nextUserId, username := adminUsername, password := freshHash }],
      nextUserId := s.nextUserId + 1 }

/-- Outcome of a POST to `/login` (`src/app.py` lines 100-110). -/
inductive LoginOutcome
  | success (userId : Nat)
  | failure (msg : String)
deriving Repr, DecidableEq

/-- The single flash message both failed-login paths produce
(`src/app.py` line 109). -/
def genericLoginError : String := "Неверный логин или пароль."

/-- The POST branch of the `/login` handler, `src/app.py` lines 100-110:
look the username up; log in when the stored hash matches
(`check_password_hash`, abstracted as `chk stored given`); otherwise — for an
unknown username and for a wrong password alike — flash the one generic
message and re-render the login page. -/
def login (chk : String → String → Bool) (s : AppState)
    (username password : String) : LoginOutcome :=
  match s.users.find? (fun u => u.username = username) with
  | some u => if chk u.password password then .success u.id
              else .failure genericLoginError
  | none => .failure genericLoginError

/- ### The two listing queries -/

/-- The ordering requested by `Post.query.order_by(Post.date_posted.desc())`:
`a` precedes `b` when `a`'s timestamp is at least `b`'s. -/
def postRel (a b : Post) : Prop := b.date_posted ≤ a.date_posted

instance : DecidableRel postRel := fun a b => Nat.decLe b.date_posted a.date_posted

instance : IsTotal Post postRel :=
  ⟨fun a b => Nat.le_total b.date_posted a.date_posted⟩

instance : IsTrans Post postRel :=
  ⟨fun _ _ _ h1 h2 => Nat.le_trans h2 h1⟩

/-- `Post.query.order_by(Post.date_posted.desc()).all()`: the table in a
stable descending-timestamp order (rows with equal timestamps keep storage
order, which is what the un-indexed SQLite scan of this query yields). -/
def sortByDateDesc (l : List Post) : List Post := List.insertionSort postRel l

/-- The query the `/blog` handler runs, `src/app.py` line 88. -/
def blogPosts (s : AppState) : List Post := sortByDateDesc s.posts

/-- The query the GET branch of the `/admin` handler runs,
`src/app.py` line 146. -/
def adminPosts (s : AppState) : List Post := sortByDateDesc s.posts

/- ### The asset-reference invariant of the spec (for claim C7) -/

/-- Decidable form of the spec's invariant: every present image reference
names a file that exists under the upload root and is referenced by exactly
one post. -/
def assetInvariant (s : AppState) : Bool :=
  s.posts.all fun p =>
    match p.image_file with
    | none => true
    | some n =>
      s.uploadDir.contains n &&
        ((s.posts.filter (fun q => q.image_file == some n)).length == 1)

/-- The empty initial state (fresh database, empty upload folder). -/
def s0 : AppState :=
  { posts := [], nextId := 1, uploadDir := [], users := [], nextUserId := 1 }

/- ### Lemmas about the sanitizer and path resolution -/

/-- Every character surviving Python's `.strip("._")` was in the input. -/
theorem mem_of_mem_pyStripDots {l : List Char} {c : Char}
    (h : c ∈ pyStripDots l) : c ∈ l := by
  unfold pyStripDots at h
  rw [List.mem_reverse] at h
  have h1 : c ∈ (l.dropWhile isStripChar).reverse :=
    List.Sublist.mem h (List.dropWhile_sublist isStripChar)
  rw [List.mem_reverse] at h1
  exact List.Sublist.mem h1 (List.dropWhile_sublist isStripChar)

/-- `.strip("._")` leaves no leading `.` or `_`. -/
theorem head_pyStripDots {l : List Char} {c : Char} {t : List Char}
    (h : pyStripDots l = c :: t) : isStripChar c = false := by
  have hB : (l.dropWhile isStripChar).reverse.dropWhile isStripChar <:+
      (l.dropWhile isStripChar).reverse := List.dropWhile_suffix isStripChar
  have hpre := List.reverse_prefix.mpr hB
  rw [List.reverse_reverse] at hpre
  have h2 : pyStripDots l <+: l.dropWhile isStripChar := hpre
  rw [h] at h2
  obtain ⟨tl, htl⟩ := h2
  have hh := List.head?_dropWhile_not isStripChar l
  rw [← htl] at hh
  simpa using hh

/-- Every character of a sanitized filename lies in `[A-Za-z0-9_.-]`. -/
theorem secure_filename_chars (s : String) :
    ∀ c ∈ (secure_filename s).data, allowedChar c = true := by
  intro c hc
  have h1 : c ∈ (List.intercalate ['_']
      (pySplitWS ((s.data.filter (fun c => c.toNat ≤ 127)).map
        (fun c => if c = '/' then ' ' else c)))).filter allowedChar :=
    mem_of_mem_pyStripDots hc
  exact (List.mem_filter.mp h1).2

/-- A sanitized filename contains no POSIX or Windows directory separator. -/
theorem secure_filename_no_separator (s : String) :
    ∀ c ∈ (secure_filename s).data, c ≠ '/' ∧ c ≠ '\\' := by
  intro c hc
  have h := secure_filename_chars s c hc
  constructor
  · rintro rfl
    exact absurd h (by decide)
  · rintro rfl
    exact absurd h (by decide)

/-- A nonempty sanitized filename never starts with `.` or `_`. -/
theorem secure_filename_head (s : String) {c : Char} {t : List Char}
    (h : (secure_filename s).data = c :: t) : c ≠ '.' ∧ c ≠ '_' := by
  have h2 : isStripChar c = false := head_pyStripDots h
  constructor <;> rintro rfl <;> simp [isStripChar] at h2

/-- Resolution processes concatenated component lists sequentially. -/
theorem resolveGo_append (st : List String) (l1 l2 : List String) :
    resolveGo st (l1 ++ l2) = resolveGo (resolveGo st l1) l2 := by
  induction l1 generalizing st with
  | nil => rfl
  | cons c cs ih =>
    simp only [List.cons_append, resolveGo]
    split
    · exact ih st
    · split
      · exact ih st.tail
      · exact ih (c :: st)

/-- C4: for every uploaded original filename, the handler's
`secure_filename` sanitization removes directory separators and
path-traversal components, so `os.path.join(UPLOAD_FOLDER, filename)` at
`src/app.py` line 138 denotes a location whose resolution still lies under
the resolved upload root — for a filename containing `../` (or any other
input) no file is written outside the configured upload root. -/
theorem secure_filename_keeps_writes_under_root (root : List String) (name : String) :
    (∀ c ∈ (secure_filename name).data, c ≠ '/' ∧ c ≠ '\\')
  ∧ resolve root <+: resolve (root ++ [secure_filename name]) := by
  refine ⟨secure_filename_no_separator name, ?_⟩
  unfold resolve
  rw [resolveGo_append]
  cases hdata : (secure_filename name).data with
  | nil =>
    have hempty : secure_filename name = "" := by
      apply String.ext
      simpa using hdata
    rw [hempty]
    simp only [resolveGo]
    exact List.prefix_refl _
  | cons c t =>
    have hc := secure_filename_head name hdata
    have hne : secure_filename name ≠ "" := by
      intro he
      rw [he] at hdata
      simp at hdata
    have hnd : secure_filename name ≠ "." := by
      intro he
      rw [he] at hdata
      have : c = '.' := by
        have := congrArg List.head? hdata
        simpa using this.symm
      exact hc.1 this
    have hndd : secure_filename name ≠ ".." := by
      intro he
      rw [he] at hdata
      have : c = '.' := by
        have := congrArg List.head? hdata
        simpa using this.symm
      exact hc.1 this
    have hstep : resolveGo (resolveGo [] root) [secure_filename name] =
        secure_filename name :: resolveGo [] root := by
      simp only [resolveGo]
      rw [if_neg, if_neg]
      · exact hndd
      · simp [hne, hnd]
    rw [hstep, List.reverse_cons]
    exact ⟨[secure_filename name], rfl⟩

/- ### Lemmas about the listing order -/

/-- Filtering rows of one fixed timestamp commutes with one insertion step:
the inserted post lands in front of the equal-timestamp block. -/
theorem filter_orderedInsert (d : Nat) (p : Post) (m : List Post) :
    (List.orderedInsert postRel p m).filter (fun q => q.date_posted = d) =
      if p.date_posted = d then p :: m.filter (fun q => q.date_posted = d)
      else m.filter (fun q => q.date_posted = d) := by
  induction m with
  | nil =>
    by_cases hpd : p.date_posted = d <;> simp [List.orderedInsert, hpd]
  | cons q qs ih =>
    by_cases hqp : postRel p q
    · rw [List.orderedInsert_of_le postRel qs hqp]
      by_cases hpd : p.date_posted = d <;> simp [List.filter_cons, hpd]
    · have hlt : ¬ (q.date_posted ≤ p.date_posted) := hqp
      simp only [List.orderedInsert, if_neg hqp]
      by_cases hpd : p.date_posted = d
      · have hqd : ¬ (q.date_posted = d) := by
          intro hq
          exact hlt (Nat.le_of_eq (hq.trans hpd.symm))
        simp [List.filter_cons, hqd, hpd, ih]
      · simp [List.filter_cons, hpd, ih]

/-- The listing sort is stable: rows sharing a timestamp keep their storage
order. -/
theorem filter_sortByDateDesc (d : Nat) (l : List Post) :
    (sortByDateDesc l).filter (fun q => q.date_posted = d) =
      l.filter (fun q => q.date_posted = d) := by
  induction l with
  | nil => rfl
  | cons p ps ih =>
    show (List.orderedInsert postRel p (List.insertionSort postRel ps)).filter _ = _
    rw [filter_orderedInsert]
    simp only [sortByDateDesc] at ih
    by_cases hpd : p.date_posted = d <;> simp [hpd, ih, List.filter_cons]

/-- Appending a strictly-newest row and sorting puts that row in front and
leaves the rest of the listing unchanged. -/
theorem insertionSort_append_newest (l : List Post) (p : Post)
    (h : ∀ x ∈ l, x.date_posted < p.date_posted) :
    List.insertionSort postRel (l ++ [p]) = p :: List.insertionSort postRel l := by
  induction l with
  | nil => rfl
  | cons q qs ih =>
    have hq : q.date_posted < p.date_posted := h q (List.mem_cons_self q qs)
    have hrest : ∀ x ∈ qs, x.date_posted < p.date_posted := fun x hx =>
      h x (List.mem_cons_of_mem q hx)
    show List.orderedInsert postRel q (List.insertionSort postRel (qs ++ [p])) = _
    rw [ih hrest]
    have hnp : ¬ postRel q p := Nat.not_le.mpr hq
    show (if postRel q p then q :: p :: List.insertionSort postRel qs
          else p :: List.orderedInsert postRel q (List.insertionSort postRel qs)) = _
    rw [if_neg hnp]
    rfl

/-- Two posts sharing one creation timestamp, stored with ids 1 and 2. -/
def c5state : AppState :=
  { posts := [{ id := 1, title := "a", content := "x", date_posted := 5, image_file := none },
              { id := 2, title := "b", content := "y", date_posted := 5, image_file := none }],
    nextId := 3, uploadDir := [], users := [], nextUserId := 1 }

/-- C5 counterexample: the listing query orders by `date_posted` descending
only; on two posts with equal timestamps the rows come back in storage order
— identifiers ascending `[1, 2]` — and not identifier-descending `[2, 1]` as
the claim states. -/
theorem listing_ties_not_id_descending :
    (blogPosts c5state).map Post.id = [1, 2] ∧
      (blogPosts c5state).map Post.id ≠ [2, 1] := by decide

/-- C5 (amended): `listAll()` returns all posts ordered descending by
creation timestamp, deterministically; rows with equal timestamps keep their
storage (insertion, identifier-ascending) order — the query specifies no
identifier-descending tie-break. -/
theorem listing_sorted_desc_stable (s : AppState) :
    (blogPosts s).Perm s.posts
  ∧ (blogPosts s).Sorted postRel
  ∧ ∀ d : Nat, (blogPosts s).filter (fun q => q.date_posted = d) =
      s.posts.filter (fun q => q.date_posted = d) :=
  ⟨List.perm_insertionSort postRel s.posts,
   List.sorted_insertionSort postRel s.posts,
   fun d => filter_sortByDateDesc d s.posts⟩

/-- C10: the `/blog` listing and the `/admin` panel listing run the very same
query over the same state, so for every repository state they produce the
same ordered sequence. -/
theorem blog_and_admin_listings_agree (s : AppState) : blogPosts s = adminPosts s := rfl

/-- C1: whenever the title is empty, the content is empty, or the title
exceeds 80 characters, the `/admin` POST handler stops with a validation
failure (`flash` + redirect) and returns the state unchanged — the checks at
`src/app.py` lines 126-132 run before the file save (line 138) and before the
insert/commit (lines 140-142), so no post row is persisted and no asset is
stored. -/
theorem create_validation_rejects_before_write (s : AppState) (now : Nat)
    (t c : String) (img : Option Upload)
    (h : t = "" ∨ c = "" ∨ 80 < t.length) :
    ∃ m, admin_post s now t c img = (.validationError m, s) := by
  rcases h with h | h | h
  · exact ⟨"Заголовок и содержание не могут быть пустыми.", by simp [admin_post, h]⟩
  · exact ⟨"Заголовок и содержание не могут быть пустыми.", by simp [admin_post, h]⟩
  · by_cases ht : t = ""
    · exact ⟨"Заголовок и содержание не могут быть пустыми.", by simp [admin_post, ht]⟩
    · by_cases hc : c = ""
      · exact ⟨"Заголовок и содержание не могут быть пустыми.", by simp [admin_post, hc]⟩
      · exact ⟨"Заголовок слишком длинный.", by simp [admin_post, ht, hc, h]⟩

/-- C1 witness: the empty title is rejected on the empty state with no
write. -/
theorem create_validation_rejects_witness :
    ("" = "" ∨ "x" = "" ∨ 80 < String.length "") ∧
      ∃ m, admin_post s0 0 "" "x" none = (.validationError m, s0) :=
  ⟨Or.inl rfl, create_validation_rejects_before_write s0 0 "" "x" none (Or.inl rfl)⟩

/-- C9: a file part carrying an empty original filename is treated exactly as
an absent upload (`if image and image.filename != ''`, `src/app.py`
line 135): the handler behaves identically to the no-file case, writes
nothing under the upload root, and any post it creates carries a null image
reference. -/
theorem empty_filename_treated_as_absent (s : AppState) (now : Nat)
    (t c : String) (u : Upload) (h : u.filename = "") :
    admin_post s now t c (some u) = admin_post s now t c none
  ∧ (admin_post s now t c (some u)).2.uploadDir = s.uploadDir
  ∧ ∀ p, (admin_post s now t c (some u)).1 = .created p → p.image_file = none := by
  have hn : uploadName (some u) = none := by simp [uploadName, h]
  have heq : admin_post s now t c (some u) = admin_post s now t c none := by
    simp [admin_post, uploadName, h]
  have hdir : ∀ (img : Option Upload), uploadName img = none →
      (admin_post s now t c img).2.uploadDir = s.uploadDir := by
    intro img himg
    unfold admin_post
    split
    · rfl
    · split
      · rfl
      · simp [himg]
  refine ⟨heq, hdir (some u) hn, ?_⟩
  intro p hp
  rw [heq] at hp
  unfold admin_post at hp
  split at hp
  · simp at hp
  · split at hp
    · simp at hp
    · simp only [uploadName] at hp
      simp at hp
      rw [← hp]

/-- C9 witness: a concrete upload with empty filename behaves as no upload on
the empty state. -/
theorem empty_filename_treated_as_absent_witness :
    (Upload.mk "").filename = "" ∧
      admin_post s0 1 "t" "c" (some (Upload.mk "")) = admin_post s0 1 "t" "c" none :=
  ⟨rfl, (empty_filename_treated_as_absent s0 1 "t" "c" (Upload.mk "") rfl).1⟩

/-- C6 counterexample: the claim quantifies over every create request with a
valid title and content, but with an upload whose original filename `"../"`
sanitizes to the empty string the handler raises `IsADirectoryError` at the
save (`src/app.py` line 138): the request fails with HTTP 500 and nothing is
persisted, so the create does not succeed. -/
theorem create_valid_input_fails_on_degenerate_upload :
    admin_post s0 1 "a" "b" (some (Upload.mk "../")) = (.serverError, s0) := by
  decide

/-- C6 (amended): for a title of 1-80 characters and non-empty content, and
an optional upload whose original filename does not sanitize to the empty
string (otherwise the save raises and nothing is persisted — see the
counterexample), the create succeeds and persists exactly one new record
carrying the fresh identifier (`nextId`, which no existing row carries) and
the supplied current timestamp; provided the clock has advanced past every
stored timestamp (readings of `datetime.utcnow` taken strictly earlier), the
subsequent listing starts with the new post. -/
theorem create_valid_persists_and_lists_first (s : AppState) (now : Nat)
    (t c : String) (img : Option Upload)
    (ht : t ≠ "") (hc : c ≠ "") (hlen : t.length ≤ 80)
    (hfresh : ∀ q ∈ s.posts, q.id < s.nextId)
    (hnow : ∀ q ∈ s.posts, q.date_posted < now)
    (himg : uploadName img ≠ some "") :
    (admin_post s now t c img).1 =
      .created { id := s.nextId, title := t, content := c,
                 date_posted := now, image_file := uploadName img }
  ∧ (admin_post s now t c img).2.posts =
      s.posts ++ [{ id := s.nextId, title := t, content := c,
                    date_posted := now, image_file := uploadName img }]
  ∧ (∀ q ∈ s.posts, q.id ≠ s.nextId)
  ∧ blogPosts (admin_post s now t c img).2 =
      { id := s.nextId, title := t, content := c,
        date_posted := now, image_file := uploadName img } :: blogPosts s := by
  have hcond : ¬ ((t = "" || c = "") = true) := by simp [ht, hc]
  have hlen2 : ¬ (t.length > 80) := Nat.not_lt.mpr hlen
  have hmain : (admin_post s now t c img).1 =
        .created { id := s.nextId, title := t, content := c,
                   date_posted := now, image_file := uploadName img }
      ∧ (admin_post s now t c img).2.posts =
        s.posts ++ [{ id := s.nextId, title := t, content := c,
                      date_posted := now, image_file := uploadName img }] := by
    cases himgv : uploadName img with
    | none =>
      constructor <;> simp [admin_post, hcond, hlen2, ht, hc, himgv]
    | some f =>
      have hf : ¬ (f = "") := by
        intro h0
        exact himg (h0 ▸ himgv)
      constructor <;> simp [admin_post, hcond, hlen2, ht, hc, himgv, hf]
  refine ⟨hmain.1, hmain.2, ?_, ?_⟩
  · intro q hq
    exact Nat.ne_of_lt (hfresh q hq)
  · show sortByDateDesc (admin_post s now t c img).2.posts = _
    rw [hmain.2]
    exact insertionSort_append_newest s.posts _ hnow

/-- C6 witness: creating a first post on the empty state lists it first. -/
theorem create_valid_witness :
    (admin_post s0 1 "a" "b" none).1 =
      .created { id := 1, title := "a", content := "b",
                 date_posted := 1, image_file := none }
  ∧ (admin_post s0 1 "a" "b" none).2.posts =
      [{ id := 1, title := "a", content := "b",
         date_posted := 1, image_file := none }]
  ∧ (∀ q ∈ s0.posts, q.id ≠ s0.nextId)
  ∧ blogPosts (admin_post s0 1 "a" "b" none).2 =
      { id := 1, title := "a", content := "b",
        date_posted := 1, image_file := none } :: blogPosts s0 := by
  have h := create_valid_persists_and_lists_first s0 1 "a" "b" none
    (by decide) (by decide) (by decide)
    (fun q hq => absurd hq (List.not_mem_nil q))
    (fun q hq => absurd hq (List.not_mem_nil q))
    (by decide)
  simpa using h

/-- C2: deleting an id with no matching row aborts with the 404 outcome and
leaves the state untouched; deleting an existing row succeeds and removes the
row for every outcome of the asset deletion (best-effort: a failing
`os.remove` is swallowed), and the attempted file removal touches the upload
root only when the row holds an image name and the removal call does not
raise. -/
theorem delete_notfound_or_removes_regardless (s : AppState) (pid : Nat)
    (removeFails : Bool) :
    ((∀ q ∈ s.posts, q.id ≠ pid) → delete_post s pid removeFails = (.notFound, s))
  ∧ (∀ p, s.posts.find? (fun q => q.id = pid) = some p →
      (delete_post s pid removeFails).1 = .success
      ∧ (delete_post s pid removeFails).2.posts =
          s.posts.filter (fun q => q.id ≠ pid)
      ∧ (delete_post s pid removeFails).2.uploadDir =
          (match p.image_file with
           | none => s.uploadDir
           | some name =>
             if removeFails then s.uploadDir
             else if s.uploadDir.contains name then s.uploadDir.erase name
             else s.uploadDir)) := by
  constructor
  · intro h
    have hf : s.posts.find? (fun q => q.id = pid) = none := by
      rw [List.find?_eq_none]
      intro q hq
      simpa using h q hq
    simp [delete_post, hf]
  · intro p hp
    simp [delete_post, hp]

/-- C2 witness: on a one-post state holding an image, an unknown id yields
404 unchanged, and deleting the post with a failing asset removal still
removes the row while the upload root keeps the file. -/
theorem delete_notfound_or_removes_witness :
    (delete_post
        { posts := [{ id := 1, title := "a", content := "b",
                      date_posted := 1, image_file := some "a.png" }],
          nextId := 2, uploadDir := ["a.png"], users := [], nextUserId := 1 }
        7 true
      = (.notFound,
        { posts := [{ id := 1, title := "a", content := "b",
                      date_posted := 1, image_file := some "a.png" }],
          nextId := 2, uploadDir := ["a.png"], users := [], nextUserId := 1 }))
  ∧ ((delete_post
        { posts := [{ id := 1, title := "a", content := "b",
                      date_posted := 1, image_file := some "a.png" }],
          nextId := 2, uploadDir := ["a.png"], users := [], nextUserId := 1 }
        1 true).1 = .success
      ∧ (delete_post
          { posts := [{ id := 1, title := "a", content := "b",
                        date_posted := 1, image_file := some "a.png" }],
            nextId := 2, uploadDir := ["a.png"], users := [], nextUserId := 1 }
          1 true).2.posts = []) := by
  constructor
  · exact (delete_notfound_or_removes_regardless _ 7 true).1 (by decide)
  · have h := (delete_notfound_or_removes_regardless
      { posts := [{ id := 1, title := "a", content := "b",
                    date_posted := 1, image_file := some "a.png" }],
        nextId := 2, uploadDir := ["a.png"], users := [], nextUserId := 1 }
      1 true).2
      { id := 1, title := "a", content := "b",
        date_posted := 1, image_file := some "a.png" } (by decide)
    exact ⟨h.1, h.2.1⟩

/-- When a row with the configured username already exists, bootstrap is the
identity. -/
theorem setup_database_found {s : AppState} {u : String} {r : UserRec}
    (h' : String) (hf : s.users.find? (fun x => x.username = u) = some r) :
    setup_database s u h' = s := by
  unfold setup_database
  rw [hf]

/-- When no row with the configured username exists, bootstrap appends
exactly one admin row. -/
theorem setup_database_not_found {s : AppState} {u : String}
    (h' : String) (hf : s.users.find? (fun x => x.username = u) = none) :
    setup_database s u h' =
      { s with
        users := s.users ++ [{ id := s.nextUserId, username := u, password := h' }],
        nextUserId := s.nextUserId + 1 } := by
  unfold setup_database
  rw [hf]

/-- C3: the bootstrap routine is idempotent.  Unconditionally, a second run
from the state a first run produced changes nothing, and a run never alters
or removes existing user rows (their stored hashes included) — it can only
append.  When the starting state satisfies the username-uniqueness constraint
of the `users` table (at most one row with the configured name), two
consecutive runs leave exactly one principal carrying the configured admin
username. -/
theorem bootstrap_idempotent (s : AppState) (u h1 h2 : String)
    (hu : (s.users.filter (fun r => r.username = u)).length ≤ 1) :
    setup_database (setup_database s u h1) u h2 = setup_database s u h1
  ∧ (∃ tl, (setup_database s u h1).users = s.users ++ tl)
  ∧ ((setup_database (setup_database s u h1) u h2).users.filter
      (fun r => r.username = u)).length = 1 := by
  cases hf : s.users.find? (fun x => x.username = u) with
  | some r =>
    have hsA : setup_database s u h1 = s := setup_database_found h1 hf
    have hsB : setup_database s u h2 = s := setup_database_found h2 hf
    have hmem : r ∈ s.users := List.mem_of_find?_eq_some hf
    have hru : r.username = u := by simpa using List.find?_some hf
    have hone : (s.users.filter (fun x => x.username = u)).length = 1 := by
      have hge : 0 < (s.users.filter (fun x => x.username = u)).length :=
        List.length_pos_of_mem (List.mem_filter.mpr ⟨hmem, by simpa using hru⟩)
      omega
    refine ⟨?_, ⟨[], by simp [hsA]⟩, ?_⟩
    · rw [hsA, hsB]
    · rw [hsA, hsB]
      exact hone
  | none =>
    have hnotu : ∀ x ∈ s.users, ¬ (x.username = u) := by
      intro x hx
      have := List.find?_eq_none.mp hf x hx
      simpa using this
    have hs1 : (setup_database s u h1).users =
        s.users ++ [{ id := s.nextUserId, username := u, password := h1 }] := by
      rw [setup_database_not_found h1 hf]
    have hfind1 : (setup_database s u h1).users.find? (fun x => x.username = u) =
        some { id := s.nextUserId, username := u, password := h1 } := by
      rw [hs1, List.find?_append, hf]
      simp
    have hs2 : setup_database (setup_database s u h1) u h2 = setup_database s u h1 :=
      setup_database_found h2 hfind1
    refine ⟨hs2, ⟨_, hs1⟩, ?_⟩
    rw [hs2]
    show ((setup_database s u h1).users.filter (fun x => x.username = u)).length = 1
    rw [hs1, List.filter_append]
    have hnil : s.users.filter (fun x => x.username = u) = [] := by
      rw [List.filter_eq_nil_iff]
      intro a ha
      simpa using hnotu a ha
    rw [hnil]
    simp

/-- C3 witness: bootstrapping the empty state twice yields exactly one admin
row and the second run is a no-op. -/
theorem bootstrap_idempotent_witness :
    setup_database (setup_database s0 "admin" "hashA") "admin" "hashB"
      = setup_database s0 "admin" "hashA"
  ∧ (∃ tl, (setup_database s0 "admin" "hashA").users = s0.users ++ tl)
  ∧ ((setup_database (setup_database s0 "admin" "hashA") "admin" "hashB").users.filter
      (fun r => r.username = "admin")).length = 1 :=
  bootstrap_idempotent s0 "admin" "hashA" "hashB" (by decide)

/-- C8: a login attempt with an unknown username and one with a known
username but wrong password produce the identical user-visible outcome — the
single generic flash message of `src/app.py` line 109 — so the two runs are
indistinguishable and usernames cannot be enumerated. -/
theorem login_failures_indistinguishable (chk : String → String → Bool)
    (s : AppState) (u1 p1 u2 p2 : String)
    (h1 : ∀ r ∈ s.users, r.username ≠ u1)
    (h2 : ∃ r, s.users.find? (fun x => x.username = u2) = some r
          ∧ chk r.password p2 = false) :
    login chk s u1 p1 = .failure genericLoginError
  ∧ login chk s u2 p2 = .failure genericLoginError
  ∧ login chk s u1 p1 = login chk s u2 p2 := by
  have hf1 : s.users.find? (fun x => x.username = u1) = none := by
    rw [List.find?_eq_none]
    intro x hx
    simpa using h1 x hx
  obtain ⟨r, hfr, hchk⟩ := h2
  have hL1 : login chk s u1 p1 = .failure genericLoginError := by
    unfold login
    rw [hf1]
  have hL2 : login chk s u2 p2 = .failure genericLoginError := by
    unfold login
    rw [hfr]
    simp [hchk]
  exact ⟨hL1, hL2, hL1.trans hL2.symm⟩

/-- The credential store of the C8 witness: one admin row whose stored value
matches only the literal password `"secret"`. -/
def c8state : AppState :=
  { posts := [], nextId := 1, uploadDir := [],
    users := [{ id := 1, username := "admin", password := "secret" }],
    nextUserId := 2 }

/-- C8 witness: on a concrete store, the unknown-username run and the
wrong-password run both yield the one generic failure. -/
theorem login_failures_indistinguishable_witness :
    login (fun stored given => stored == given) c8state "bob" "pw"
        = .failure genericLoginError
  ∧ login (fun stored given => stored == given) c8state "admin" "wrong"
        = .failure genericLoginError
  ∧ login (fun stored given => stored == given) c8state "bob" "pw"
        = login (fun stored given => stored == given) c8state "admin" "wrong" :=
  login_failures_indistinguishable (fun stored given => stored == given)
    c8state "bob" "pw" "admin" "wrong"
    (by decide)
    ⟨{ id := 1, username := "admin", password := "secret" }, by decide, by decide⟩

/-- State after creating one post with upload `a.png` on the empty state. -/
def c7s1 : AppState := (admin_post s0 1 "t" "c" (some (Upload.mk "a.png"))).2

/-- State after creating a second post with the same upload name `a.png`
(the handler silently overwrites the file on disk). -/
def c7s2 : AppState := (admin_post c7s1 2 "t" "c" (some (Upload.mk "a.png"))).2

/-- C7 counterexample: after the first create the invariant (every present
image reference names an existing file under the upload root referenced by
exactly one post) holds, and the second create — a legal operation from an
invariant-satisfying state — breaks it: both posts now reference the one
stored `a.png`, so the reference no longer corresponds to exactly one asset
per post. -/
theorem asset_invariant_not_preserved :
    assetInvariant c7s1 = true ∧ assetInvariant c7s2 = false := by decide

/-- C7 (amended): what creation does guarantee is a postcondition, not a
preserved invariant: every successful create leaves the created post's image
reference (when present) naming a file that exists under the upload root at
that moment.  Uniqueness of the referencing post is not guaranteed (filename
collisions silently overwrite and share the stored file), which is what the
counterexample exhibits. -/
theorem create_image_reference_stored (s : AppState) (now : Nat)
    (t c : String) (img : Option Upload) (p : Post) (n : String)
    (hp : (admin_post s now t c img).1 = .created p)
    (hn : p.image_file = some n) :
    n ∈ (admin_post s now t c img).2.uploadDir := by
  by_cases ht : t = ""
  · exfalso
    rw [show admin_post s now t c img =
        (.validationError "Заголовок и содержание не могут быть пустыми.", s) from
      by simp [admin_post, ht]] at hp
    simp at hp
  · by_cases hc2 : c = ""
    · exfalso
      rw [show admin_post s now t c img =
          (.validationError "Заголовок и содержание не могут быть пустыми.", s) from
        by simp [admin_post, hc2]] at hp
      simp at hp
    · by_cases hlen : t.length > 80
      · exfalso
        rw [show admin_post s now t c img =
            (.validationError "Заголовок слишком длинный.", s) from
          by simp [admin_post, ht, hc2, hlen]] at hp
        simp at hp
      · cases himg : uploadName img with
        | none =>
          exfalso
          have hred : admin_post s now t c img =
              (.created { id := s.nextId, title := t, content := c,
                          date_posted := now, image_file := none },
               { s with
                 posts := s.posts ++ [{ id := s.nextId, title := t, content := c,
                                        date_posted := now, image_file := none }],
                 nextId := s.nextId + 1 }) := by
            simp [admin_post, ht, hc2, hlen, himg]
          rw [hred] at hp
          simp at hp
          rw [← hp] at hn
          simp at hn
        | some f =>
          by_cases hf : f = ""
          · exfalso
            rw [show admin_post s now t c img = (.serverError, s) from
              by simp [admin_post, ht, hc2, hlen, himg, hf]] at hp
            simp at hp
          · have hred : admin_post s now t c img =
                (.created { id := s.nextId, title := t, content := c,
                            date_posted := now, image_file := some f },
                 { s with
                   posts := s.posts ++ [{ id := s.nextId, title := t, content := c,
                                          date_posted := now,
                                          image_file := some f }],
                   uploadDir := s.uploadDir.insert f,
                   nextId := s.nextId + 1 }) := by
              simp [admin_post, ht, hc2, hlen, himg, hf]
            rw [hred] at hp
            simp at hp
            rw [hred]
            rw [← hp] at hn
            simp at hn
            simp only [hn]
            exact List.mem_insert_self n s.uploadDir

/-- C7 witness (amended claim): a concrete successful create with an image
leaves the referenced file present under the upload root. -/
theorem create_image_reference_stored_witness :
    ((admin_post s0 1 "t" "c" (some (Upload.mk "x.png"))).1 =
        .created { id := 1, title := "t", content := "c", date_posted := 1,
                   image_file := some "x.png" })
  ∧ "x.png" ∈ (admin_post s0 1 "t" "c" (some (Upload.mk "x.png"))).2.uploadDir :=
  ⟨by decide,
   create_image_reference_stored s0 1 "t" "c" (some (Upload.mk "x.png"))
     { id := 1, title := "t", content := "c", date_posted := 1,
       image_file := some "x.png" } "x.png" (by decide) rfl⟩
